import Mathlib

/-!
Verification of the CaseForce stakeholder-CRM state engine.

This development shallowly embeds the relationship-tracking core of the
repository: the entity store and persistence helpers of
src/shared/storage.ts, the CSV normalization layer of
src/shared/outlookExport.ts, and the ingestion / reconciliation handlers of
src/taskpane/taskpane.tsx (syncFromServer, importOutlookEmailExport and
its calendar counterpart, handleImportJsonFile).

Modelling conventions:
- JS strings are Lean String values; String.prototype.trim and
  String.prototype.toLowerCase are modelled character-wise over the
  underlying character list (jsTrim, jsLower), which matches the JS
  behaviour on the ASCII data the application handles.
- Impure inputs are explicit parameters: every call of nowIso() inside one
  synchronous mutation is the parameter now; each uuidv4() call receives an
  explicit fresh identifier (a counter-generated one in batch pipelines);
  Date.parse is an explicit parameter dp : String -> Option Int, with none
  standing for NaN.
- localStorage plus the in-memory cache form the Store record; the
  fire-and-forget remote push has no observable effect on the claims and is
  not represented.
- JSON.stringify / JSON.parse of the persisted AppState record are modelled
  at the structure level by StateJson, whose Option fields record presence
  or absence of the three top-level fields; an unparseable JSON text is the
  parse result none.
- TS field names that are Lean keywords are renamed: Interaction.at becomes
  atIso, OutlookEmail.from becomes fromField, OutlookEvent.end becomes
  endIso.
-/

set_option autoImplicit false
set_option maxRecDepth 4000

namespace CaseForce

/-- JS String.prototype.toLowerCase, character-wise (ASCII-faithful). -/
def jsLower (s : String) : String := String.mk (s.data.map Char.toLower)

/-- Characters removed by JS String.prototype.trim (whitespace). -/
def trimChars (l : List Char) : List Char :=
  ((l.dropWhile Char.isWhitespace).reverse.dropWhile Char.isWhitespace).reverse

/-- JS String.prototype.trim. -/
def jsTrim (s : String) : String := String.mk (trimChars s.data)

/-- JS truthiness of an optional string: undefined and the empty string are falsy. -/
def strOptTruthy (o : Option String) : Bool :=
  match o with
  | none => false
  | some s => s ≠ ""

/-- models.ts: a timestamped free-text note attached to a stakeholder. -/
structure NoteEntry where
  atIso : String
  text : String
  deriving DecidableEq, Repr

/-- models.ts: Stakeholder. -/
structure Stakeholder where
  id : String
  displayName : String
  email : Option String := none
  title : Option String := none
  company : Option String := none
  tags : List String
  createdAt : String
  updatedAt : String
  lastInteractionAt : Option String := none
  notes : List NoteEntry
  deriving DecidableEq, Repr

/-- models.ts: HostApp. -/
inductive HostApp where
  | web
  | outlook
  | oneNote
  | powerPoint
  | unknown
  deriving DecidableEq, Repr

/-- models.ts: InteractionType. -/
inductive InteractionType where
  | email
  | meeting
  | note
  deriving DecidableEq, Repr

/-- models.ts: Interaction.source. -/
structure InteractionSource where
  host : HostApp
  outlookItemId : Option String := none
  onenotePageId : Option String := none
  powerpointSlideId : Option String := none
  powerpointShapeIds : Option (List String) := none
  webContextId : Option String := none
  deriving DecidableEq, Repr

/-- models.ts: Interaction (field at renamed to atIso). -/
structure Interaction where
  id : String
  type : InteractionType
  atIso : String
  title : String
  summary : Option String := none
  participantIds : List String
  source : InteractionSource
  suggestedNextActions : Option (List String) := none
  deriving DecidableEq, Repr

/-- storage.ts addInteraction argument: an Interaction with the id omitted. -/
structure InteractionInput where
  type : InteractionType
  atIso : String
  title : String
  summary : Option String := none
  participantIds : List String
  source : InteractionSource
  suggestedNextActions : Option (List String) := none
  deriving DecidableEq, Repr

/-- models.ts: AppState, the aggregate persistence unit. -/
structure AppState where
  stakeholders : List Stakeholder
  interactions : List Interaction
  updatedAt : Option String := none
  deriving DecidableEq, Repr

/-- storage.ts parseIso: Date.parse with missing and NaN results mapped to 0.
dp is the ambient Date.parse, returning none on unparseable input. -/
def parseIso (dp : String → Option Int) (timestamp : Option String) : Int :=
  match timestamp with
  | none => 0
  | some s =>
    match dp s with
    | none => 0
    | some parsed => parsed

/-- storage.ts getStateTimestamp: Math.max of 0, the aggregate stamp, each
stakeholder's max(updatedAt, createdAt), and each interaction's at. -/
def getStateTimestamp (dp : String → Option Int) (state : AppState) : Int :=
  let stateUpdatedAt := parseIso dp state.updatedAt
  let stakeholderTimes := state.stakeholders.map
    (fun s => max (parseIso dp (some s.updatedAt)) (parseIso dp (some s.createdAt)))
  let interactionTimes := state.interactions.map (fun i => parseIso dp (some i.atIso))
  (stakeholderTimes ++ interactionTimes).foldl max (max 0 stateUpdatedAt)

/-- Recency of a snapshot, written from the specification text: the maximum
of 0, parse(updatedAt), the per-stakeholder maxima of parse(createdAt) and
parse(updatedAt), and the per-interaction occurrence stamps, with missing or
unparseable timestamps contributing zero. Stated independently of
getStateTimestamp so the two can be compared. -/
def recencySpec (dp : String → Option Int) (state : AppState) : Int :=
  max (max 0 (parseIso dp state.updatedAt))
    (max
      ((state.stakeholders.map
        (fun s => max (parseIso dp (some s.createdAt)) (parseIso dp (some s.updatedAt)))).foldr max 0)
      ((state.interactions.map (fun i => parseIso dp (some i.atIso))).foldr max 0))

/-- storage.ts saveState, restricted to its observable effect on the
snapshot value: stamp the aggregate updatedAt with the current instant. -/
def saveState (state : AppState) (now : String) : AppState :=
  { state with updatedAt := some now }

/-- The persisted store: the module-level in-memory cache plus the durable
localStorage slot keyed by stakeholderCrm.v1.state. -/
structure Store where
  memoryState : Option AppState
  localCopy : Option AppState
  deriving DecidableEq, Repr

/-- storage.ts saveState at store level: stamp, cache in memory, write the
durable local copy (the remote push is fire-and-forget and ignored). -/
def saveStateStore (store : Store) (state : AppState) (now : String) : AppState × Store :=
  let stamped := saveState state now
  (stamped, { memoryState := some stamped, localCopy := some stamped })

/-- The persisted-state JSON record: top-level fields may be absent. -/
structure StateJson where
  stakeholders : Option (List Stakeholder) := none
  interactions : Option (List Interaction) := none
  updatedAt : Option String := none
  deriving DecidableEq, Repr

/-- The tolerant read shared by loadState and importState:
parsed.stakeholders ?? [] and parsed.interactions ?? []. -/
def normalizeStateJson (j : StateJson) : AppState :=
  { stakeholders := j.stakeholders.getD []
    interactions := j.interactions.getD []
    updatedAt := j.updatedAt }

/-- storage.ts exportState: JSON.stringify of the current state, modelled at
the record level (every present field is emitted). -/
def exportStateJson (state : AppState) : StateJson :=
  { stakeholders := some state.stakeholders
    interactions := some state.interactions
    updatedAt := state.updatedAt }

/-- storage.ts importState on a successfully parsed JSON text: normalize the
parsed record tolerantly, then saveState it. -/
def importStateJson (j : StateJson) (now : String) : AppState :=
  saveState (normalizeStateJson j) now

/-- storage.ts importState at store level; parsed is the JSON.parse result,
none when the text is not valid JSON, in which case JSON.parse throws before
any write happens. -/
def importStateStore (store : Store) (parsed : Option StateJson) (now : String) :
    Except String (AppState × Store) :=
  match parsed with
  | none => Except.error "Unexpected token in JSON"
  | some j => Except.ok (saveStateStore store (normalizeStateJson j) now)

/-- taskpane.tsx handleImportJsonFile: run the import, and on a thrown parse
error report a user-visible alert message, leaving the store untouched. -/
def handleImportJsonFile (store : Store) (parsed : Option StateJson) (now : String) :
    Option String × Store :=
  match importStateStore store parsed now with
  | Except.error msg => (some ("Import failed: " ++ msg), store)
  | Except.ok (_, store2) => (none, store2)

/-- storage.ts upsertStakeholderByEmail. Returns the new snapshot and the
created or updated stakeholder; freshId is the uuidv4 value used if a new
stakeholder is created and now the nowIso() instant. -/
def upsertStakeholderByEmail (state : AppState) (email displayName : Option String)
    (freshId now : String) : AppState × Stakeholder :=
  let cleanEmail := jsLower (jsTrim (email.getD ""))
  let cleanName := jsTrim (displayName.getD "")
  if cleanEmail = "" then
    let s : Stakeholder :=
      { id := freshId
        displayName := if cleanName = "" then "Unknown Stakeholder" else cleanName
        tags := []
        createdAt := now
        updatedAt := now
        notes := [] }
    ({ state with stakeholders := s :: state.stakeholders }, s)
  else
    match state.stakeholders.find? (fun s => jsLower (s.email.getD "") == cleanEmail) with
    | some existing =>
      let updated : Stakeholder :=
        { existing with
            displayName := if cleanName = "" then existing.displayName else cleanName
            updatedAt := now }
      let stakeholders := state.stakeholders.map (fun s => if s.id = existing.id then updated else s)
      ({ state with stakeholders := stakeholders }, updated)
    | none =>
      let s : Stakeholder :=
        { id := freshId
          displayName := if cleanName = "" then cleanEmail else cleanName
          email := some cleanEmail
          tags := []
          createdAt := now
          updatedAt := now
          notes := [] }
      ({ state with stakeholders := s :: state.stakeholders }, s)

/-- storage.ts addNote. -/
def addNote (state : AppState) (stakeholderId : String) (noteText : String)
    (now : String) : AppState :=
  let clean := jsTrim noteText
  if clean = "" then state
  else
    let stakeholders := state.stakeholders.map (fun s =>
      if s.id ≠ stakeholderId then s
      else { s with updatedAt := now, notes := { atIso := now, text := clean } :: s.notes })
    saveState { state with stakeholders := stakeholders } now

/-- storage.ts addInteraction: assign the fresh id, refresh participants,
prepend the interaction and save. -/
def addInteraction (state : AppState) (input : InteractionInput) (freshId now : String) :
    AppState :=
  let full : Interaction :=
    { id := freshId
      type := input.type
      atIso := input.atIso
      title := input.title
      summary := input.summary
      participantIds := input.participantIds
      source := input.source
      suggestedNextActions := input.suggestedNextActions }
  let stakeholders := state.stakeholders.map (fun s =>
    if full.participantIds.contains s.id then
      { s with lastInteractionAt := some full.atIso, updatedAt := now }
    else s)
  saveState { state with stakeholders := stakeholders, interactions := full :: state.interactions } now

/-- outlookExport.ts OutlookEmail address entries. -/
structure EmailAddr where
  name : Option String := none
  address : Option String := none
  deriving DecidableEq, Repr

/-- outlookExport.ts OutlookEmail (field from renamed to fromField). -/
structure OutlookEmail where
  id : String
  subject : Option String := none
  fromField : Option EmailAddr := none
  toField : Option (List EmailAddr) := none
  cc : Option (List EmailAddr) := none
  receivedDateTime : Option String := none
  bodyPreview : Option String := none
  deriving DecidableEq, Repr

/-- outlookExport.ts OutlookEvent (field end renamed to endIso). -/
structure OutlookEvent where
  id : String
  subject : Option String := none
  startIso : Option String := none
  endIso : Option String := none
  organizer : Option EmailAddr := none
  attendees : Option (List EmailAddr) := none
  bodyPreview : Option String := none
  deriving DecidableEq, Repr

/-- Collapse every whitespace run to a single space, tracking whether the
previous character was whitespace: the replace step of normHeader. -/
def collapseWsAux : Bool → List Char → List Char
  | _, [] => []
  | prevWs, c :: rest =>
    if c.isWhitespace then
      if prevWs then collapseWsAux true rest
      else ' ' :: collapseWsAux true rest
    else c :: collapseWsAux false rest

/-- Collapse every whitespace run to a single space. -/
def collapseWs (l : List Char) : List Char := collapseWsAux false l

/-- outlookExport.ts normHeader: trim, lower-case, collapse inner whitespace. -/
def normHeader (h : String) : String :=
  String.mk (collapseWs ((trimChars h.data).map Char.toLower))

/-- Split a character list at each semicolon, comma or newline, keeping
empty segments, as JS String.prototype.split on that alternation does. -/
def splitSeps : List Char → List (List Char)
  | [] => [[]]
  | c :: rest =>
    let r := splitSeps rest
    if c = ';' ∨ c = ',' ∨ c = '\n' then [] :: r
    else
      match r with
      | [] => [[c]]
      | h :: t => (c :: h) :: t

/-- First match of the regex for an angle-bracketed address: the capture of
the earliest position where an opening bracket is followed by at least one
character other than a closing bracket and then a closing bracket. -/
def angleMatch : List Char → Option (List Char)
  | [] => none
  | c :: rest =>
    if c = '<' then
      let content := rest.takeWhile (fun d => d ≠ '>')
      if content ≠ [] ∧ content.length < rest.length then some content
      else angleMatch rest
    else angleMatch rest

/-- The replace step of splitEmails: strip one leading and one trailing
double quote (the two regex anchors cannot overlap on a single character). -/
def stripEdgeQuotes (l : List Char) : List Char :=
  match l with
  | ['"'] => []
  | _ =>
    let l1 := if l.head? = some '"' then l.tail else l
    if l1.getLast? = some '"' then l1.dropLast else l1

/-- outlookExport.ts splitEmails: split a recipients cell on separators,
trim, drop empties, and reduce each entry to its angle-bracketed address
when one is present, stripping edge quotes. -/
def splitEmails (v : Option String) : List String :=
  let s := jsTrim (v.getD "")
  if s = "" then []
  else
    ((splitSeps s.data).map (fun seg => jsTrim (String.mk seg))
      |>.filter (fun x => x ≠ "")
      |>.map (fun x =>
        match angleMatch x.data with
        | some content => String.mk (stripEdgeQuotes content)
        | none => String.mk (stripEdgeQuotes x.data)))

/-- Association-list lookup standing for a JS object read; the object was
built by assignments, so the list is stored most-recent-binding-first. -/
def lookupAssoc (m : List (String × String)) (key : String) : Option String :=
  match m.find? (fun kv => kv.1 == key) with
  | some kv => some kv.2
  | none => none

/-- A JS object built by reduce-with-assignment over pairs: later
assignments win, so lookup goes through the reversed pair list. -/
def buildObj (pairs : List (String × String)) : List (String × String) :=
  pairs.reverse

/-- outlookExport.ts pick: first candidate whose mapped header holds a
non-blank cell; falling back to matching the row keys by normalized
equality. -/
def pick (row : List (String × String)) (headers : List (String × String))
    (candidates : List String) : Option String :=
  match candidates.findSome? (fun c =>
    match lookupAssoc headers (normHeader c) with
    | some key =>
      match lookupAssoc row key with
      | some v => if jsTrim v ≠ "" then some v else none
      | none => none
    | none => none) with
  | some v => some v
  | none =>
    let normalized := buildObj (row.map (fun kv => (normHeader kv.1, kv.1)))
    candidates.findSome? (fun c =>
      match lookupAssoc normalized (normHeader c) with
      | some k =>
        match lookupAssoc row k with
        | some v => if jsTrim v ≠ "" then some v else none
        | none => none
      | none => none)

/-- outlookExport.ts importOutlookEmailCsv on the parsed row list; toIso is
the ambient new Date(x).toISOString() conversion. -/
def importOutlookEmailCsv (rows : List (List (String × String)))
    (toIso : String → String) : List OutlookEmail :=
  match rows with
  | [] => []
  | first :: _ =>
    let headerMap := buildObj (first.map (fun kv => (normHeader kv.1, kv.1)))
    rows.mapIdx (fun idx row =>
      let subject := pick row headerMap ["Subject", "subject"]
      let fromName := pick row headerMap ["From", "Sender", "From (Name)", "From: (Name)"]
      let fromEmail := pick row headerMap
        ["From (Address)", "From: (Address)", "Sender Address", "From Address",
         "E-mail Address", "Email Address"]
      let toRaw := pick row headerMap ["To", "To: (Name)", "To (Name)", "To Recipients"]
      let cc := pick row headerMap ["Cc", "CC", "Cc: (Name)", "Cc (Name)"]
      let received := pick row headerMap
        ["Received", "Received Time", "Received Date", "Date/Time Sent", "Sent", "Sent Time"]
      let body := pick row headerMap ["Body", "Body Preview", "BodyPreview", "Preview"]
      { id := "email-" ++ toString (idx + 1)
        subject := subject
        receivedDateTime := received.map toIso
        bodyPreview := body.map (fun b => String.mk (b.data.take 500))
        fromField :=
          if fromEmail.isSome ∨ fromName.isSome then
            some { name := fromName, address := fromEmail }
          else none
        toField := some ((splitEmails toRaw).map (fun address => { address := some address }))
        cc := some ((splitEmails cc).map (fun address => { address := some address })) })

/-- outlookExport.ts importOutlookCalendarCsv on the parsed row list. -/
def importOutlookCalendarCsv (rows : List (List (String × String)))
    (toIso : String → String) : List OutlookEvent :=
  match rows with
  | [] => []
  | first :: _ =>
    let headerMap := buildObj (first.map (fun kv => (normHeader kv.1, kv.1)))
    rows.mapIdx (fun idx row =>
      let subject := pick row headerMap ["Subject", "subject", "Title"]
      let start := pick row headerMap
        ["Start Date", "Start", "Start Time", "Start Date/Time", "Begin"]
      let endRaw := pick row headerMap ["End Date", "End", "End Time", "End Date/Time", "Finish"]
      let organizer := pick row headerMap ["Organizer", "Meeting Organizer", "From"]
      let attendees := pick row headerMap
        ["Required Attendees", "Attendees", "Invitees", "To", "Optional Attendees"]
      let body := pick row headerMap ["Description", "Body", "Notes"]
      { id := "event-" ++ toString (idx + 1)
        subject := subject
        startIso := start.map toIso
        endIso := endRaw.map toIso
        organizer := organizer.map (fun o =>
          { name := some o, address := (splitEmails (some o)).head? })
        attendees := some ((splitEmails attendees).map (fun address => { address := some address }))
        bodyPreview := body.map (fun b => String.mk (b.data.take 500)) })

/-- outlookExport.ts isExternalEmail: an address whose domain neither equals
an internal domain nor ends with a dot followed by one. -/
def isExternalEmail (email : String) (internalDomains : List String := ["bcg.com"]) : Bool :=
  let e := jsLower (jsTrim email)
  if e = "" ∨ ¬ e.data.contains '@' then false
  else
    let domain := (e.data.reverse.takeWhile (fun c => c ≠ '@')).reverse
    ¬ internalDomains.any (fun d => domain = d.data ∨ List.isSuffixOf ('.' :: d.data) domain)

/-- Fresh identifiers handed to upsertStakeholderByEmail and addInteraction
inside a batch import: the n-th uuidv4 value drawn during the handler. -/
def genId (n : Nat) : String := "uuid-" ++ toString n

/-- taskpane.tsx importOutlookEmailExport loop body for one parsed email:
upsert the external participants, then append the per-item interaction
unless the row has no subject, no preview and no surviving participant. -/
def processEmailRecord (host : HostApp) (now : String) (acc : AppState × Nat)
    (e : OutlookEmail) : AppState × Nat :=
  let participantEmails :=
    ((e.fromField.bind (fun f => f.address)) ::
        ((e.toField.getD []).map (fun x => x.address) ++ (e.cc.getD []).map (fun x => x.address)))
      |>.filterMap (fun o =>
        match o with
        | some s => if s = "" then none else some s
        | none => none)
  let upserted := participantEmails.foldl (fun (st : AppState × List String × Nat) em =>
    if isExternalEmail em then
      let r := upsertStakeholderByEmail st.1 (some em) (some em) (genId st.2.2) now
      (r.1, st.2.1 ++ [r.2.id], st.2.2 + 1)
    else st) (acc.1, [], acc.2)
  let working := upserted.1
  let participantIds := upserted.2.1
  let ctr := upserted.2.2
  if ¬ strOptTruthy e.subject ∧ ¬ strOptTruthy e.bodyPreview ∧ participantIds = [] then
    (working, ctr)
  else
    let input : InteractionInput :=
      { type := InteractionType.email
        atIso := match e.receivedDateTime with
          | some r => if r = "" then now else r
          | none => now
        title := match e.subject with
          | some s => if s = "" then "Email" else s
          | none => "Email"
        summary := e.bodyPreview
        participantIds := participantIds
        source := { host := host, outlookItemId := some e.id }
        suggestedNextActions := some ["Send follow-up", "Confirm next steps", "Schedule check-in"] }
    (addInteraction working input (genId ctr) now, ctr + 1)

/-- taskpane.tsx importOutlookEmailExport: process at most the first 200
parsed emails, then append the one summary note interaction. -/
def importOutlookEmailExport (host : HostApp) (state : AppState)
    (emails : List OutlookEmail) (ctr : Nat) (now : String) : AppState × Nat :=
  let processed := (emails.take 200).foldl (processEmailRecord host now) (state, ctr)
  let summaryInput : InteractionInput :=
    { type := InteractionType.note
      atIso := now
      title := "Outlook Inbox export imported"
      summary := some ("Imported " ++ toString emails.length ++ " emails from CSV.")
      participantIds := []
      source := { host := host } }
  (addInteraction processed.1 summaryInput (genId processed.2) now, processed.2 + 1)

/-- taskpane.tsx importOutlookCalendarExport loop body for one parsed event. -/
def processEventRecord (host : HostApp) (now : String) (acc : AppState × Nat)
    (ev : OutlookEvent) : AppState × Nat :=
  let participantEmails :=
    ((ev.organizer.bind (fun f => f.address)) :: (ev.attendees.getD []).map (fun x => x.address))
      |>.filterMap (fun o =>
        match o with
        | some s => if s = "" then none else some s
        | none => none)
  let upserted := participantEmails.foldl (fun (st : AppState × List String × Nat) em =>
    if isExternalEmail em then
      let r := upsertStakeholderByEmail st.1 (some em) (some em) (genId st.2.2) now
      (r.1, st.2.1 ++ [r.2.id], st.2.2 + 1)
    else st) (acc.1, [], acc.2)
  let working := upserted.1
  let participantIds := upserted.2.1
  let ctr := upserted.2.2
  if ¬ strOptTruthy ev.subject ∧ ¬ strOptTruthy ev.bodyPreview ∧ participantIds = [] then
    (working, ctr)
  else
    let input : InteractionInput :=
      { type := InteractionType.meeting
        atIso := match ev.startIso with
          | some r => if r = "" then now else r
          | none => now
        title := match ev.subject with
          | some s => if s = "" then "Meeting" else s
          | none => "Meeting"
        summary := ev.bodyPreview
        participantIds := participantIds
        source := { host := host, outlookItemId := some ev.id }
        suggestedNextActions := some ["Confirm decisions", "Send recap", "Assign owners"] }
    (addInteraction working input (genId ctr) now, ctr + 1)

/-- taskpane.tsx importOutlookCalendarExport: process at most the first 200
parsed events, then append the one summary note interaction. -/
def importOutlookCalendarExport (host : HostApp) (state : AppState)
    (events : List OutlookEvent) (ctr : Nat) (now : String) : AppState × Nat :=
  let processed := (events.take 200).foldl (processEventRecord host now) (state, ctr)
  let summaryInput : InteractionInput :=
    { type := InteractionType.note
      atIso := now
      title := "Outlook Calendar export imported"
      summary := some ("Imported " ++ toString events.length ++ " events from CSV.")
      participantIds := []
      source := { host := host } }
  (addInteraction processed.1 summaryInput (genId processed.2) now, processed.2 + 1)

/-- taskpane.tsx syncFromServer adoption test: the fetched remote snapshot
wins exactly when its timestamp strictly exceeds the local one. -/
def syncAdopts (dp : String → Option Int) (localState remote : AppState) : Bool :=
  getStateTimestamp dp remote > getStateTimestamp dp localState

/-- taskpane.tsx syncFromServer resolution step: the state held after a pull
resolves against the current local snapshot. -/
def syncFromServer (dp : String → Option Int) (localState remote : AppState) : AppState :=
  if syncAdopts dp localState remote then remote else localState

/-- The stakeholder record created by upsertStakeholderByEmail when the
normalized email v is non-empty and no stored email matches it. -/
def freshStakeholder (v : String) (n : Option String) (fid now : String) : Stakeholder :=
  { id := fid
    displayName := if jsTrim (n.getD "") = "" then v else jsTrim (n.getD "")
    email := some v
    tags := []
    createdAt := now
    updatedAt := now
    notes := [] }

/-- The updated record produced by upsertStakeholderByEmail when an existing
stakeholder is found: displayName replaced only when the supplied name is
non-blank, update stamp refreshed, every other field preserved. -/
def renamedStakeholder (E : Stakeholder) (n : Option String) (now : String) : Stakeholder :=
  { E with
      displayName := if jsTrim (n.getD "") = "" then E.displayName else jsTrim (n.getD "")
      updatedAt := now }

/-- The single inbox CSV row of end-to-end scenario 1. -/
def kickoffRow : List (String × String) :=
  [("Subject", "Kickoff"), ("From", "Jane Doe <jane@acme.com>"),
    ("Received", "2024-01-05T10:00:00Z")]

/-- The empty first-run snapshot. -/
def emptyState : AppState := { stakeholders := [], interactions := [] }

/-- A minimal parsed email record used to exercise the batch cap. -/
def sampleEmail : OutlookEmail := { id := "e", subject := some "s" }

/-- A batch of 201 parsed emails, one more than the processing cap. -/
def manyEmails : List OutlookEmail := List.replicate 201 sampleEmail

/-- A minimal parsed calendar record used to exercise the batch cap. -/
def sampleEvent : OutlookEvent := { id := "ev", subject := some "m" }

/-- A batch of 201 parsed events, one more than the processing cap. -/
def manyEvents : List OutlookEvent := List.replicate 201 sampleEvent

/-- Sample Date.parse assigning 5 to t5 and t5b and 7 to t7. -/
def dpNum : String → Option Int := fun s =>
  if s = "t5" then some 5 else if s = "t5b" then some 5 else if s = "t7" then some 7 else none

/-- Sample snapshot stamped t5. -/
def stT5 : AppState := { stakeholders := [], interactions := [], updatedAt := some "t5" }

/-- Sample snapshot stamped t5b, distinct from stT5 but of equal recency. -/
def stT5b : AppState :=
  { stakeholders := []
    interactions :=
      [{ id := "i1", type := InteractionType.note, atIso := "t5b", title := "n",
         participantIds := [], source := { host := HostApp.web } }]
    updatedAt := none }

/-- Sample snapshot stamped t7. -/
def stT7 : AppState := { stakeholders := [], interactions := [], updatedAt := some "t7" }

/-- Sample persisted store holding a t5 snapshot. -/
def sampleStore : Store := { memoryState := some stT5, localCopy := some stT5 }

/-- A stakeholder whose stored email carries leading whitespace, as a
tolerant JSON import can produce. -/
def janeUntrimmed : Stakeholder :=
  { id := "s1", displayName := "Jane", email := some " jane@x.com", tags := [],
    createdAt := "t0", updatedAt := "t0", notes := [] }

/-- Snapshot holding only janeUntrimmed. -/
def cexState : AppState :=
  { stakeholders := [janeUntrimmed], interactions := [], updatedAt := none }

/-- A stakeholder whose stored email is trimmed but upper-cased. -/
def bobStored : Stakeholder :=
  { id := "s2", displayName := "Bob", email := some "BOB@x.com", tags := ["vip"],
    createdAt := "t0", updatedAt := "t0", lastInteractionAt := some "t1",
    notes := [{ atIso := "t0", text := "n1" }] }

/-- Snapshot holding only bobStored. -/
def bobState : AppState :=
  { stakeholders := [bobStored], interactions := [], updatedAt := some "t0" }

theorem char_toNat_ofNat_valid (m : Nat) (h : m < 55296) : (Char.ofNat m).toNat = m := by
  unfold Char.ofNat
  rw [dif_pos (Or.inl h)]
  simp [Char.ofNatAux, Char.toNat, UInt32.toNat]

theorem char_toLower_toLower (c : Char) : c.toLower.toLower = c.toLower := by
  unfold Char.toLower
  by_cases h : c.toNat ≥ 65 ∧ c.toNat ≤ 90
  · have h1 := h.1
    have h2 := h.2
    rw [if_pos h]
    have hv : (Char.ofNat (c.toNat + 32)).toNat = c.toNat + 32 :=
      char_toNat_ofNat_valid _ (by omega)
    rw [if_neg (by rw [hv]; omega)]
  · rw [if_neg h, if_neg h]

theorem jsLower_idem (s : String) : jsLower (jsLower s) = jsLower s := by
  show String.mk ((s.data.map Char.toLower).map Char.toLower) = String.mk (s.data.map Char.toLower)
  rw [List.map_map]
  exact congrArg String.mk (List.map_congr_left (fun c _ => char_toLower_toLower c))

theorem foldr_max_zero_nonneg (l : List Int) : 0 ≤ l.foldr max 0 := by
  induction l with
  | nil => simp
  | cons x xs ih => exact le_trans ih (le_max_right x _)

theorem foldr_max_shift (l : List Int) (b : Int) (hb : 0 ≤ b) :
    l.foldr max b = max (l.foldr max 0) b := by
  induction l with
  | nil => simp [max_eq_right hb]
  | cons x xs ih => rw [List.foldr_cons, List.foldr_cons, ih, max_assoc]

theorem foldl_max_eq (l : List Int) (a : Int) (ha : 0 ≤ a) :
    l.foldl max a = max a (l.foldr max 0) := by
  induction l generalizing a with
  | nil => simp [max_eq_left ha]
  | cons x xs ih =>
    rw [List.foldl_cons, List.foldr_cons, ih (max a x) (le_trans ha (le_max_left a x)),
      max_assoc]

theorem getStateTimestamp_eq_recency (dp : String → Option Int) (st : AppState) :
    getStateTimestamp dp st = recencySpec dp st := by
  unfold getStateTimestamp recencySpec
  rw [foldl_max_eq _ _ (le_max_left 0 _), List.foldr_append,
    foldr_max_shift _ _ (foldr_max_zero_nonneg _)]
  have hmap : st.stakeholders.map
      (fun s => max (parseIso dp (some s.updatedAt)) (parseIso dp (some s.createdAt))) =
      st.stakeholders.map
      (fun s => max (parseIso dp (some s.createdAt)) (parseIso dp (some s.updatedAt))) :=
    List.map_congr_left (fun s _ => max_comm _ _)
  rw [hmap]

theorem find?_eq_some_of_countP_one {α : Type} {p : α → Bool} {l : List α} {a : α}
    (h1 : l.countP p = 1) (ha : a ∈ l) (hpa : p a = true) : l.find? p = some a := by
  induction l with
  | nil => cases ha
  | cons x xs ih =>
    rw [List.countP_cons] at h1
    rw [List.find?_cons]
    cases hx : p x with
    | true =>
      have hxs : xs.countP p = 0 := by
        rw [hx, if_pos rfl] at h1
        omega
      rcases List.mem_cons.mp ha with rfl | hmem
      · rfl
      · exact absurd hpa (List.countP_eq_zero.mp hxs a hmem)
    | false =>
      have hmem : a ∈ xs := by
        rcases List.mem_cons.mp ha with rfl | hmem
        · rw [hpa] at hx; cases hx
        · exact hmem
      have h1xs : xs.countP p = 1 := by
        rw [hx] at h1
        simpa using h1
      exact ih h1xs hmem

theorem map_eq_self_of_mem {α : Type} {f : α → α} {l : List α} (h : ∀ x ∈ l, f x = x) :
    l.map f = l := by
  induction l with
  | nil => rfl
  | cons x xs ih =>
    rw [List.map_cons, h x (List.mem_cons_self x xs),
      ih (fun y hy => h y (List.mem_cons_of_mem x hy))]

theorem map_pres_countP {α : Type} (p : α → Bool) (f : α → α) (l : List α)
    (h : ∀ x ∈ l, p (f x) = p x) : (l.map f).countP p = l.countP p := by
  induction l with
  | nil => rfl
  | cons x xs ih =>
    rw [List.map_cons, List.countP_cons, List.countP_cons, h x (List.mem_cons_self x xs),
      ih (fun y hy => h y (List.mem_cons_of_mem x hy))]

theorem map_pres_find? {α : Type} (p : α → Bool) (f : α → α) (l : List α) (a : α)
    (h : ∀ x ∈ l, p (f x) = p x) (hfind : l.find? p = some a) :
    (l.map f).find? p = some (f a) := by
  induction l with
  | nil => cases hfind
  | cons x xs ih =>
    have hx := h x (List.mem_cons_self x xs)
    cases hpx : p x with
    | true =>
      rw [List.find?_cons_of_pos _ hpx] at hfind
      injection hfind with heq
      subst heq
      rw [List.map_cons, List.find?_cons_of_pos _ (by rw [hx, hpx])]
    | false =>
      rw [List.find?_cons_of_neg _ (by simp [hpx])] at hfind
      rw [List.map_cons, List.find?_cons_of_neg _ (by simp [hx, hpx])]
      exact ih (fun y hy => h y (List.mem_cons_of_mem x hy)) hfind

theorem upsert_found (st : AppState) (e : String) (n : Option String) (fid now v : String)
    (E : Stakeholder) (hv : jsLower (jsTrim e) = v) (hvne : v ≠ "")
    (hfind : st.stakeholders.find? (fun s => jsLower (s.email.getD "") == v) = some E) :
    upsertStakeholderByEmail st (some e) n fid now =
      ({ st with stakeholders := st.stakeholders.map (fun s =>
          if s.id = E.id then renamedStakeholder E n now else s) },
        renamedStakeholder E n now) := by
  unfold upsertStakeholderByEmail renamedStakeholder
  simp only [Option.getD_some]
  rw [hv, if_neg hvne, hfind]

theorem upsert_notfound (st : AppState) (e : String) (n : Option String) (fid now v : String)
    (hv : jsLower (jsTrim e) = v) (hvne : v ≠ "")
    (hfind : st.stakeholders.find? (fun s => jsLower (s.email.getD "") == v) = none) :
    upsertStakeholderByEmail st (some e) n fid now =
      ({ st with stakeholders := freshStakeholder v n fid now :: st.stakeholders },
        freshStakeholder v n fid now) := by
  unfold upsertStakeholderByEmail freshStakeholder
  simp only [Option.getD_some]
  rw [hv, if_neg hvne, hfind]

/-- Claim C1: the periodic pull replaces the local snapshot with the fetched
remote one exactly when the remote recency (the maximum of 0, the parsed
aggregate stamp, each stakeholder's parsed createdAt and updatedAt and each
interaction's parsed occurrence stamp, missing and unparseable stamps
counting as zero) strictly exceeds the local recency; on equal recency the
local copy is kept and the fetched copy discarded. -/
theorem claim_C1 (dp : String → Option Int) (localState remote : AppState) :
    (syncAdopts dp localState remote = true ↔
      recencySpec dp remote > recencySpec dp localState) ∧
    (recencySpec dp remote > recencySpec dp localState →
      syncFromServer dp localState remote = remote) ∧
    (¬ recencySpec dp remote > recencySpec dp localState →
      syncFromServer dp localState remote = localState) := by
  have hl := getStateTimestamp_eq_recency dp localState
  have hr := getStateTimestamp_eq_recency dp remote
  have hiff : syncAdopts dp localState remote = true ↔
      recencySpec dp remote > recencySpec dp localState := by
    unfold syncAdopts
    rw [← hl, ← hr]
    exact decide_eq_true_iff
  refine ⟨hiff, ?_, ?_⟩
  · intro h
    unfold syncFromServer
    rw [if_pos (hiff.mpr h)]
  · intro h
    unfold syncFromServer
    rw [if_neg (fun hb => h (hiff.mp hb))]

theorem claim_C1_witness :
    (recencySpec dpNum stT7 > recencySpec dpNum stT5 ∧
      syncFromServer dpNum stT5 stT7 = stT7) ∧
    (¬ recencySpec dpNum stT5b > recencySpec dpNum stT5 ∧
      syncFromServer dpNum stT5 stT5b = stT5) :=
  ⟨⟨by decide, (claim_C1 dpNum stT5 stT7).2.1 (by decide)⟩,
    ⟨by decide, (claim_C1 dpNum stT5 stT5b).2.2 (by decide)⟩⟩

/-- Claim C3 counterexample: on a snapshot with no stakeholders, addNote
with non-blank text and an unresolvable id does not return its input
unchanged; the aggregate stamp is refreshed by the saveState call, so the
claimed no-op fails for the unresolvable-id case. -/
theorem claim_C3_counterexample :
    jsTrim "hi" ≠ "" ∧ (∀ s ∈ stT5.stakeholders, s.id ≠ "ghost") ∧
      addNote stT5 "ghost" "hi" "t7" ≠ stT5 ∧
      addNote stT5 "ghost" "hi" "t7" = { stT5 with updatedAt := some "t7" } := by
  decide

/-- Claim C3 (amended): addNote returns its input snapshot unchanged when
the note text is empty or whitespace-only; when the text is non-blank but
the stakeholder id resolves to nothing, the stakeholder and interaction
lists are unchanged but the snapshot is re-stamped with the current instant
(and persisted), so the result equals the input with only the aggregate
updatedAt refreshed. -/
theorem claim_C3_amended (st : AppState) (stakeholderId noteText now : String) :
    (jsTrim noteText = "" → addNote st stakeholderId noteText now = st) ∧
    ((∀ s ∈ st.stakeholders, s.id ≠ stakeholderId) → jsTrim noteText ≠ "" →
      addNote st stakeholderId noteText now = { st with updatedAt := some now }) := by
  constructor
  · intro h
    simp [addNote, h]
  · intro hid htext
    have hmap : st.stakeholders.map (fun s =>
        if s.id ≠ stakeholderId then s
        else { s with updatedAt := now, notes := { atIso := now, text := jsTrim noteText } :: s.notes }) =
        st.stakeholders := by
      rw [List.map_congr_left (g := id) (fun s hs => by simp [hid s hs]), List.map_id]
    rw [addNote]
    simp only [if_neg htext, hmap]
    rfl

theorem claim_C3_amended_witness :
    (∀ s ∈ stT5.stakeholders, s.id ≠ "ghost") ∧ jsTrim "hi" ≠ "" ∧
      addNote stT5 "ghost" "hi" "t7" = { stT5 with updatedAt := some "t7" } :=
  ⟨by decide, by decide, (claim_C3_amended stT5 "ghost" "hi" "t7").2 (by decide) (by decide)⟩

/-- Claim C7: re-importing the exported state record reproduces the
stakeholder and interaction lists exactly and refreshes only the aggregate
stamp, and a persisted record lacking the top-level stakeholders or
interactions fields reads back as empty lists rather than an error. -/
theorem claim_C7 (st : AppState) (now : String) (u : Option String) :
    importStateJson (exportStateJson st) now =
      { stakeholders := st.stakeholders, interactions := st.interactions,
        updatedAt := some now } ∧
    normalizeStateJson { stakeholders := none, interactions := none, updatedAt := u } =
      { stakeholders := [], interactions := [], updatedAt := u } :=
  ⟨rfl, rfl⟩

/-- Claim C8: when the supplied text is not valid JSON (the parse yields no
record), importState surfaces an error, the import handler reports a
user-visible failure message, and both the in-memory snapshot and the
durable local copy are left exactly as they were. -/
theorem claim_C8 (parse : String → Option StateJson) (txt : String) (store : Store)
    (now : String) (h : parse txt = none) :
    (∃ msg, importStateStore store (parse txt) now = Except.error msg) ∧
    (handleImportJsonFile store (parse txt) now).1.isSome = true ∧
    (handleImportJsonFile store (parse txt) now).2 = store := by
  rw [h]
  exact ⟨⟨"Unexpected token in JSON", rfl⟩, rfl, rfl⟩

theorem claim_C8_witness :
    (fun _ : String => (none : Option StateJson)) "not json" = none ∧
      (handleImportJsonFile sampleStore ((fun _ : String => (none : Option StateJson)) "not json") "t7").2 = sampleStore :=
  ⟨rfl, (claim_C8 (fun _ => none) "not json" sampleStore "t7" rfl).2.2⟩

/-- Claim C4: addInteraction assigns the supplied fresh id (unique in the
log when it was not already present), prepends the full record, updates each
resolving participant's lastInteractionAt to the interaction's occurrence
stamp and updatedAt to now, silently ignores non-resolving participant ids
(total function, no entry created, ids of the registry preserved), leaves
non-participant stakeholders unchanged, and stamps the snapshot. -/
theorem claim_C4 (st : AppState) (input : InteractionInput) (freshId now : String)
    (hfresh : ∀ i ∈ st.interactions, i.id ≠ freshId) :
    (addInteraction st input freshId now).interactions =
      { id := freshId, type := input.type, atIso := input.atIso, title := input.title,
        summary := input.summary, participantIds := input.participantIds,
        source := input.source,
        suggestedNextActions := input.suggestedNextActions } :: st.interactions ∧
    (addInteraction st input freshId now).interactions.countP (fun i => i.id == freshId) = 1 ∧
    (addInteraction st input freshId now).stakeholders =
      st.stakeholders.map (fun s =>
        if s.id ∈ input.participantIds then
          { s with lastInteractionAt := some input.atIso, updatedAt := now }
        else s) ∧
    (addInteraction st input freshId now).stakeholders.map (fun s => s.id) =
      st.stakeholders.map (fun s => s.id) ∧
    (∀ s ∈ st.stakeholders, s.id ∉ input.participantIds →
      s ∈ (addInteraction st input freshId now).stakeholders) ∧
    (∀ s ∈ st.stakeholders, s.id ∈ input.participantIds →
      { s with lastInteractionAt := some input.atIso, updatedAt := now } ∈
        (addInteraction st input freshId now).stakeholders) ∧
    (addInteraction st input freshId now).updatedAt = some now := by
  have hsk : (addInteraction st input freshId now).stakeholders =
      st.stakeholders.map (fun s =>
        if input.participantIds.contains s.id then
          { s with lastInteractionAt := some input.atIso, updatedAt := now }
        else s) := rfl
  have hcm : ∀ s : Stakeholder,
      (input.participantIds.contains s.id = true) ↔ s.id ∈ input.participantIds := by
    intro s
    simp [List.contains, List.elem_iff]
  refine ⟨rfl, ?_, ?_, ?_, ?_, ?_, rfl⟩
  · have h0 : st.interactions.countP (fun i => i.id == freshId) = 0 :=
      List.countP_eq_zero.mpr (fun i hi => by simp [hfresh i hi])
    have : (addInteraction st input freshId now).interactions.countP (fun i => i.id == freshId) =
        st.interactions.countP (fun i => i.id == freshId) + 1 := by
      rw [show (addInteraction st input freshId now).interactions =
        { id := freshId, type := input.type, atIso := input.atIso, title := input.title,
          summary := input.summary, participantIds := input.participantIds,
          source := input.source,
          suggestedNextActions := input.suggestedNextActions } :: st.interactions from rfl,
        List.countP_cons]
      simp
    rw [this, h0]
  · rw [hsk]
    exact List.map_congr_left (fun s _ => by
      by_cases hm : s.id ∈ input.participantIds
      · rw [if_pos ((hcm s).mpr hm), if_pos hm]
      · rw [if_neg (fun hc => hm ((hcm s).mp hc)), if_neg hm])
  · rw [hsk, List.map_map]
    exact List.map_congr_left (fun s _ => by
      by_cases hm : input.participantIds.contains s.id = true
      · simp only [Function.comp, if_pos hm]
      · simp only [Function.comp, if_neg hm])
  · intro s hs hm
    rw [hsk]
    refine List.mem_map.mpr ⟨s, hs, ?_⟩
    show (if input.participantIds.contains s.id then
        { s with lastInteractionAt := some input.atIso, updatedAt := now }
      else s) = s
    rw [if_neg (fun hc => hm ((hcm s).mp hc))]
  · intro s hs hm
    rw [hsk]
    refine List.mem_map.mpr ⟨s, hs, ?_⟩
    show (if input.participantIds.contains s.id then
        { s with lastInteractionAt := some input.atIso, updatedAt := now }
      else s) = { s with lastInteractionAt := some input.atIso, updatedAt := now }
    rw [if_pos ((hcm s).mpr hm)]

theorem claim_C4_witness :
    (∀ i ∈ bobState.interactions, i.id ≠ "uuid-9") ∧
      (addInteraction bobState
        { type := InteractionType.email, atIso := "t8", title := "Hello",
          participantIds := ["s2", "ghost"], source := { host := HostApp.web } }
        "uuid-9" "t9").stakeholders.map (fun s => s.id) =
        bobState.stakeholders.map (fun s => s.id) :=
  ⟨by decide,
    (claim_C4 bobState
      { type := InteractionType.email, atIso := "t8", title := "Hello",
        participantIds := ["s2", "ghost"], source := { host := HostApp.web } }
      "uuid-9" "t9" (by decide)).2.2.2.1⟩

/-- Claim C10: when the normalized email is non-empty and matches no
existing stakeholder (no stored email case-insensitively equals it, which is
the lookup the function performs), a missing or blank display name makes the
created stakeholder carry the normalized email itself as displayName (the
Unknown Stakeholder fallback is reserved for the empty-email path), and the
stored email is the normalized form, never the raw input. -/
theorem claim_C10 (st : AppState) (emailArg : String) (displayName : Option String)
    (freshId now : String)
    (hne : jsLower (jsTrim emailArg) ≠ "")
    (hnomatch : ∀ s ∈ st.stakeholders,
      jsLower (s.email.getD "") ≠ jsLower (jsTrim emailArg))
    (hname : jsTrim (displayName.getD "") = "") :
    (upsertStakeholderByEmail st (some emailArg) displayName freshId now).2 =
      { id := freshId, displayName := jsLower (jsTrim emailArg),
        email := some (jsLower (jsTrim emailArg)), tags := [], createdAt := now,
        updatedAt := now, notes := [] } ∧
    (upsertStakeholderByEmail st (some emailArg) displayName freshId now).1 =
      { st with stakeholders :=
          { id := freshId, displayName := jsLower (jsTrim emailArg),
            email := some (jsLower (jsTrim emailArg)), tags := [], createdAt := now,
            updatedAt := now, notes := [] } :: st.stakeholders } := by
  have hfind : st.stakeholders.find?
      (fun s => jsLower (s.email.getD "") == jsLower (jsTrim emailArg)) = none :=
    List.find?_eq_none.mpr (fun s hs => by simp [hnomatch s hs])
  rw [upsert_notfound st emailArg displayName freshId now (jsLower (jsTrim emailArg)) rfl
    hne hfind]
  unfold freshStakeholder
  rw [if_pos hname]
  exact ⟨rfl, rfl⟩

theorem claim_C10_witness :
    jsLower (jsTrim " Alice@Acme.com ") ≠ "" ∧
      (∀ s ∈ bobState.stakeholders,
        jsLower (s.email.getD "") ≠ jsLower (jsTrim " Alice@Acme.com ")) ∧
      (upsertStakeholderByEmail bobState (some " Alice@Acme.com ") (some "   ") "u3" "t3").2 =
        { id := "u3", displayName := "alice@acme.com", email := some "alice@acme.com",
          tags := [], createdAt := "t3", updatedAt := "t3", notes := [] } :=
  ⟨by decide, by decide,
    (claim_C10 bobState " Alice@Acme.com " (some "   ") "u3" "t3" (by decide) (by decide)
      (by decide)).1⟩

/-- Claim C9 counterexample: a snapshot can hold a stakeholder whose
normalized (trimmed, lower-cased) email matches the normalized input while
the lookup, which lower-cases but does not trim the stored email, misses it:
with stored email " jane@x.com" and input jane@x.com the upsert creates a
second stakeholder instead of returning the existing identity, so the claim
as stated fails. -/
theorem claim_C9_counterexample :
    jsLower (jsTrim (janeUntrimmed.email.getD "")) = jsLower (jsTrim "jane@x.com") ∧
    jsLower (jsTrim "jane@x.com") ≠ "" ∧
    janeUntrimmed ∈ cexState.stakeholders ∧
    (upsertStakeholderByEmail cexState (some "jane@x.com") (some "New Name") "u9" "t9").1.stakeholders.length = 2 ∧
    (upsertStakeholderByEmail cexState (some "jane@x.com") (some "New Name") "u9" "t9").2.id ≠ janeUntrimmed.id := by
  decide

/-- Claim C9 (amended): for a snapshot holding exactly one stakeholder whose
stored email lower-cases to the normalized non-empty input email (the
lookup is case-insensitive but not whitespace-insensitive on the stored
side), the upsert returns that stakeholder's identity with displayName
replaced only when the supplied name is non-blank, updatedAt refreshed, and
email, notes and tags preserved; the registry keeps the same ids in place
(entries whose id differs from the matched one are unchanged), and the
interaction log and aggregate stamp are untouched. -/
theorem claim_C9_amended (st : AppState) (emailArg : String) (displayName : Option String)
    (freshId now : String) (E : Stakeholder) (v : String)
    (hv : jsLower (jsTrim emailArg) = v) (hvne : v ≠ "")
    (hE : E ∈ st.stakeholders) (hmatch : jsLower (E.email.getD "") = v)
    (hcount : st.stakeholders.countP (fun s => jsLower (s.email.getD "") == v) = 1) :
    (upsertStakeholderByEmail st (some emailArg) displayName freshId now).2.id = E.id ∧
    (upsertStakeholderByEmail st (some emailArg) displayName freshId now).2.displayName =
      (if jsTrim (displayName.getD "") = "" then E.displayName
        else jsTrim (displayName.getD "")) ∧
    (upsertStakeholderByEmail st (some emailArg) displayName freshId now).2.updatedAt = now ∧
    (upsertStakeholderByEmail st (some emailArg) displayName freshId now).2.email = E.email ∧
    (upsertStakeholderByEmail st (some emailArg) displayName freshId now).2.notes = E.notes ∧
    (upsertStakeholderByEmail st (some emailArg) displayName freshId now).2.tags = E.tags ∧
    (upsertStakeholderByEmail st (some emailArg) displayName freshId now).1.stakeholders =
      st.stakeholders.map (fun s =>
        if s.id = E.id then
          (upsertStakeholderByEmail st (some emailArg) displayName freshId now).2
        else s) ∧
    (upsertStakeholderByEmail st (some emailArg) displayName freshId now).1.stakeholders.map
        (fun s => s.id) = st.stakeholders.map (fun s => s.id) ∧
    (∀ s ∈ st.stakeholders, s.id ≠ E.id →
      s ∈ (upsertStakeholderByEmail st (some emailArg) displayName freshId now).1.stakeholders) ∧
    (upsertStakeholderByEmail st (some emailArg) displayName freshId now).1.interactions =
      st.interactions ∧
    (upsertStakeholderByEmail st (some emailArg) displayName freshId now).1.updatedAt =
      st.updatedAt := by
  have hfind : st.stakeholders.find? (fun s => jsLower (s.email.getD "") == v) = some E :=
    find?_eq_some_of_countP_one hcount hE (by simp [hmatch])
  rw [upsert_found st emailArg displayName freshId now v E hv hvne hfind]
  refine ⟨rfl, rfl, rfl, rfl, rfl, rfl, rfl, ?_, ?_, rfl, rfl⟩
  · rw [List.map_map]
    refine List.map_congr_left (fun s _ => ?_)
    show (if s.id = E.id then renamedStakeholder E displayName now else s).id = s.id
    by_cases h : s.id = E.id
    · rw [if_pos h]
      exact h.symm
    · rw [if_neg h]
  · intro s hs hne2
    refine List.mem_map.mpr ⟨s, hs, ?_⟩
    show (if s.id = E.id then renamedStakeholder E displayName now else s) = s
    rw [if_neg hne2]

theorem claim_C9_amended_witness :
    jsLower (jsTrim " Bob@X.com ") = "bob@x.com" ∧
      bobStored ∈ bobState.stakeholders ∧
      bobState.stakeholders.countP
        (fun s => jsLower (s.email.getD "") == "bob@x.com") = 1 ∧
      (upsertStakeholderByEmail bobState (some " Bob@X.com ") (some "Bobby") "u4" "t4").2.id =
        bobStored.id ∧
      (upsertStakeholderByEmail bobState (some " Bob@X.com ") (some "Bobby") "u4" "t4").2.email =
        bobStored.email :=
  ⟨by decide, by decide, by decide,
    (claim_C9_amended bobState " Bob@X.com " (some "Bobby") "u4" "t4" bobStored "bob@x.com"
      (by decide) (by decide) (by decide) (by decide) (by decide)).1,
    (claim_C9_amended bobState " Bob@X.com " (some "Bobby") "u4" "t4" bobStored "bob@x.com"
      (by decide) (by decide) (by decide) (by decide) (by decide)).2.2.2.1⟩

/-- Claim C2 counterexample: the at-most-one-stakeholder-per-normalized-email
hypothesis holds of a snapshot storing the untrimmed email " jane@x.com",
and jane@x.com and JANE@x.com (with trailing blanks) normalize to the same
non-empty value, yet after the two upsert calls the snapshot holds two
stakeholders with that normalized email, because the lookup lower-cases but
does not trim the stored side; the claim as stated fails. -/
theorem claim_C2_counterexample :
    List.Pairwise (fun a b : Stakeholder =>
        jsLower (jsTrim (a.email.getD "")) ≠ jsLower (jsTrim (b.email.getD "")))
      cexState.stakeholders ∧
    jsLower (jsTrim "jane@x.com") = jsLower (jsTrim "JANE@x.com  ") ∧
    jsLower (jsTrim "jane@x.com") ≠ "" ∧
    (upsertStakeholderByEmail
        (upsertStakeholderByEmail cexState (some "jane@x.com") none "u1" "t1").1
        (some "JANE@x.com  ") none "u2" "t2").1.stakeholders.countP
      (fun s => jsLower (jsTrim (s.email.getD "")) == jsLower (jsTrim "jane@x.com")) = 2 := by
  decide

/-- Claim C2 (amended): on a snapshot with pairwise-distinct stakeholder ids
in which at most one stakeholder's stored email lower-cases to the shared
non-empty normalized value of the two input emails, and with a fresh first
id not already present, upserting with e1 and then e2 yields exactly one
stakeholder whose stored email lower-cases to that value, and the second
call returns the identity found or created by the first call. -/
theorem claim_C2_amended (st : AppState) (e1 e2 : String) (n1 n2 : Option String)
    (id1 id2 t1 t2 : String) (v : String)
    (hv1 : jsLower (jsTrim e1) = v) (hv2 : jsLower (jsTrim e2) = v) (hvne : v ≠ "")
    (hcount : st.stakeholders.countP (fun s => jsLower (s.email.getD "") == v) ≤ 1)
    (hnodup : (st.stakeholders.map (fun s => s.id)).Nodup)
    (hid1 : ∀ s ∈ st.stakeholders, s.id ≠ id1) :
    (upsertStakeholderByEmail (upsertStakeholderByEmail st (some e1) n1 id1 t1).1
        (some e2) n2 id2 t2).1.stakeholders.countP
      (fun s => jsLower (s.email.getD "") == v) = 1 ∧
    (upsertStakeholderByEmail (upsertStakeholderByEmail st (some e1) n1 id1 t1).1
        (some e2) n2 id2 t2).2.id =
      (upsertStakeholderByEmail st (some e1) n1 id1 t1).2.id := by
  have hlv : jsLower v = v := by rw [← hv1, jsLower_idem]
  cases hfind : st.stakeholders.find? (fun s => jsLower (s.email.getD "") == v) with
  | none =>
    have hzero : st.stakeholders.countP (fun s => jsLower (s.email.getD "") == v) = 0 :=
      List.countP_eq_zero.mpr (List.find?_eq_none.mp hfind)
    rw [upsert_notfound st e1 n1 id1 t1 v hv1 hvne hfind]
    have hfind2 : ({ st with stakeholders := freshStakeholder v n1 id1 t1 :: st.stakeholders } :
        AppState).stakeholders.find? (fun s => jsLower (s.email.getD "") == v) =
        some (freshStakeholder v n1 id1 t1) :=
      List.find?_cons_of_pos _ (by simp [freshStakeholder, hlv])
    rw [upsert_found _ e2 n2 id2 t2 v _ hv2 hvne hfind2]
    constructor
    · show ((freshStakeholder v n1 id1 t1 :: st.stakeholders).map (fun s =>
          if s.id = (freshStakeholder v n1 id1 t1).id then
            renamedStakeholder (freshStakeholder v n1 id1 t1) n2 t2
          else s)).countP (fun s => jsLower (s.email.getD "") == v) = 1
      rw [List.map_cons]
      show ((if (freshStakeholder v n1 id1 t1).id = (freshStakeholder v n1 id1 t1).id then
          renamedStakeholder (freshStakeholder v n1 id1 t1) n2 t2
        else freshStakeholder v n1 id1 t1) ::
          st.stakeholders.map (fun s =>
            if s.id = (freshStakeholder v n1 id1 t1).id then
              renamedStakeholder (freshStakeholder v n1 id1 t1) n2 t2
            else s)).countP (fun s => jsLower (s.email.getD "") == v) = 1
      have hself : st.stakeholders.map (fun s =>
          if s.id = (freshStakeholder v n1 id1 t1).id then
            renamedStakeholder (freshStakeholder v n1 id1 t1) n2 t2
          else s) = st.stakeholders :=
        map_eq_self_of_mem (fun s hs => if_neg (hid1 s hs))
      rw [if_pos rfl, hself, List.countP_cons, hzero]
      simp [renamedStakeholder, freshStakeholder, hlv]
    · rfl
  | some E =>
    have hmE := List.find?_some hfind
    have hEmem : E ∈ st.stakeholders := List.mem_of_find?_eq_some hfind
    have hone : st.stakeholders.countP (fun s => jsLower (s.email.getD "") == v) = 1 := by
      have hpos : 0 < st.stakeholders.countP (fun s => jsLower (s.email.getD "") == v) :=
        List.countP_pos_iff.mpr ⟨E, hEmem, hmE⟩
      omega
    have hinj : ∀ s ∈ st.stakeholders, s.id = E.id → s = E := by
      intro s hs hsid
      by_contra hne2
      have hp : List.Pairwise (fun a b : Stakeholder => a.id ≠ b.id) st.stakeholders :=
        List.pairwise_map.mp hnodup
      have hsymm : Symmetric (fun a b : Stakeholder => a.id ≠ b.id) :=
        fun a b h hba => h hba.symm
      exact (hp.forall hsymm hs hEmem hne2) hsid
    have hpres1 : ∀ s ∈ st.stakeholders,
        (fun s : Stakeholder => jsLower (s.email.getD "") == v)
          ((fun s : Stakeholder =>
            if s.id = E.id then renamedStakeholder E n1 t1 else s) s) =
        (fun s : Stakeholder => jsLower (s.email.getD "") == v) s := by
      intro s hs
      show (fun s : Stakeholder => jsLower (s.email.getD "") == v)
          (if s.id = E.id then renamedStakeholder E n1 t1 else s) =
        (fun s : Stakeholder => jsLower (s.email.getD "") == v) s
      by_cases h : s.id = E.id
      · rw [if_pos h, hinj s hs h]
        exact rfl
      · rw [if_neg h]
    rw [upsert_found st e1 n1 id1 t1 v E hv1 hvne hfind]
    have hfind3 := map_pres_find? (fun s : Stakeholder => jsLower (s.email.getD "") == v)
      (fun s : Stakeholder => if s.id = E.id then renamedStakeholder E n1 t1 else s)
      st.stakeholders E hpres1 hfind
    have hfind4 : ({ st with stakeholders := st.stakeholders.map (fun s : Stakeholder =>
        if s.id = E.id then renamedStakeholder E n1 t1 else s) } :
        AppState).stakeholders.find? (fun s => jsLower (s.email.getD "") == v) =
        some (renamedStakeholder E n1 t1) := by
      show (st.stakeholders.map (fun s : Stakeholder =>
          if s.id = E.id then renamedStakeholder E n1 t1 else s)).find?
        (fun s => jsLower (s.email.getD "") == v) = some (renamedStakeholder E n1 t1)
      rw [hfind3]
      show some (if E.id = E.id then renamedStakeholder E n1 t1 else E) =
        some (renamedStakeholder E n1 t1)
      rw [if_pos rfl]
    rw [upsert_found _ e2 n2 id2 t2 v _ hv2 hvne hfind4]
    constructor
    · show ((st.stakeholders.map (fun s : Stakeholder =>
          if s.id = E.id then renamedStakeholder E n1 t1 else s)).map (fun s : Stakeholder =>
          if s.id = (renamedStakeholder E n1 t1).id then
            renamedStakeholder (renamedStakeholder E n1 t1) n2 t2
          else s)).countP (fun s => jsLower (s.email.getD "") == v) = 1
      rw [List.map_map]
      have h2 : ∀ x ∈ st.stakeholders,
          (fun s : Stakeholder => jsLower (s.email.getD "") == v)
            (((fun s : Stakeholder =>
                if s.id = (renamedStakeholder E n1 t1).id then
                  renamedStakeholder (renamedStakeholder E n1 t1) n2 t2
                else s) ∘ (fun s : Stakeholder =>
                if s.id = E.id then renamedStakeholder E n1 t1 else s)) x) =
          (fun s : Stakeholder => jsLower (s.email.getD "") == v) x := by
        intro x hx
        by_cases h : x.id = E.id
        · have hxE : x = E := hinj x hx h
          subst hxE
          show (fun s : Stakeholder => jsLower (s.email.getD "") == v)
              ((fun s : Stakeholder =>
                if s.id = (renamedStakeholder x n1 t1).id then
                  renamedStakeholder (renamedStakeholder x n1 t1) n2 t2
                else s) (if x.id = x.id then renamedStakeholder x n1 t1 else x)) =
            (fun s : Stakeholder => jsLower (s.email.getD "") == v) x
          rw [if_pos rfl]
          show (fun s : Stakeholder => jsLower (s.email.getD "") == v)
              (if x.id = x.id then
                renamedStakeholder (renamedStakeholder x n1 t1) n2 t2
              else renamedStakeholder x n1 t1) =
            (fun s : Stakeholder => jsLower (s.email.getD "") == v) x
          rw [if_pos rfl]
          exact rfl
        · show (fun s : Stakeholder => jsLower (s.email.getD "") == v)
              ((fun s : Stakeholder =>
                if s.id = (renamedStakeholder E n1 t1).id then
                  renamedStakeholder (renamedStakeholder E n1 t1) n2 t2
                else s) (if x.id = E.id then renamedStakeholder E n1 t1 else x)) =
            (fun s : Stakeholder => jsLower (s.email.getD "") == v) x
          rw [if_neg h]
          show (fun s : Stakeholder => jsLower (s.email.getD "") == v)
              (if x.id = E.id then
                renamedStakeholder (renamedStakeholder E n1 t1) n2 t2
              else x) =
            (fun s : Stakeholder => jsLower (s.email.getD "") == v) x
          rw [if_neg h]
      rw [map_pres_countP _ _ _ h2, hone]
    · rfl

theorem claim_C2_amended_witness :
    jsLower (jsTrim " Bob@X.com") = "bob@x.com" ∧
      jsLower (jsTrim "BOB@x.com  ") = "bob@x.com" ∧
      bobState.stakeholders.countP (fun s => jsLower (s.email.getD "") == "bob@x.com") ≤ 1 ∧
      (upsertStakeholderByEmail (upsertStakeholderByEmail bobState (some " Bob@X.com") none "u1" "t1").1
          (some "BOB@x.com  ") none "u2" "t2").1.stakeholders.countP
        (fun s => jsLower (s.email.getD "") == "bob@x.com") = 1 :=
  ⟨by decide, by decide, by decide,
    (claim_C2_amended bobState " Bob@X.com" "BOB@x.com  " none none "u1" "u2" "t1" "t2"
      "bob@x.com" (by decide) (by decide) (by decide) (by decide) (by decide) (by decide)).1⟩

/-- Claim C5 evaluated on the code: importing the scenario-1 inbox row
(Subject Kickoff, From containing the display form Jane Doe with an
angle-bracketed address, Received a valid instant) into the empty snapshot
creates no stakeholder at all, and the Kickoff email interaction carries an
empty participant list, because the email importer reads an address only
from a dedicated address column and never extracts the angle-bracketed
address of the From display string; only the summary note matches the
claimed outcome. The ambient toISOString is taken as the identity, which
only affects the unchecked occurrence stamp. -/
theorem claim_C5 :
    (importOutlookEmailExport HostApp.web emptyState
        (importOutlookEmailCsv [kickoffRow] (fun s => s)) 0
        "2026-01-01T00:00:00.000Z").1.stakeholders = [] ∧
    (importOutlookEmailExport HostApp.web emptyState
        (importOutlookEmailCsv [kickoffRow] (fun s => s)) 0
        "2026-01-01T00:00:00.000Z").1.interactions.map
      (fun i => (i.type, i.title, i.participantIds, i.summary)) =
      [(InteractionType.note, "Outlook Inbox export imported", [],
          some "Imported 1 emails from CSV."),
        (InteractionType.email, "Kickoff", [], (none : Option String))] := by
  decide

/-- Claim C6 (amended): a parsed batch longer than 200 records is processed
exactly as its first 200 records would be, for the inbox and the calendar
path alike: the resulting registry, the per-item interaction log and the id
counter all equal those of the capped import, the dropped remainder
contributing nothing; on top of the per-item interactions exactly one
summary note interaction is prepended, whose text however reports the full
parsed record count N, not the capped imported count of 200. -/
theorem claim_C6 (host : HostApp) (st : AppState) (emails : List OutlookEmail)
    (events : List OutlookEvent) (ctr : Nat) (now : String) :
    (200 < emails.length →
      (importOutlookEmailExport host st emails ctr now).1.stakeholders =
        (importOutlookEmailExport host st (emails.take 200) ctr now).1.stakeholders ∧
      (importOutlookEmailExport host st emails ctr now).1.interactions.tail =
        (importOutlookEmailExport host st (emails.take 200) ctr now).1.interactions.tail ∧
      (importOutlookEmailExport host st emails ctr now).2 =
        (importOutlookEmailExport host st (emails.take 200) ctr now).2 ∧
      (importOutlookEmailExport host st emails ctr now).1.interactions.head? = some
        { id := genId ((importOutlookEmailExport host st emails ctr now).2 - 1)
          type := InteractionType.note
          atIso := now
          title := "Outlook Inbox export imported"
          summary := some ("Imported " ++ toString emails.length ++ " emails from CSV.")
          participantIds := []
          source := { host := host } }) ∧
    (200 < events.length →
      (importOutlookCalendarExport host st events ctr now).1.stakeholders =
        (importOutlookCalendarExport host st (events.take 200) ctr now).1.stakeholders ∧
      (importOutlookCalendarExport host st events ctr now).1.interactions.tail =
        (importOutlookCalendarExport host st (events.take 200) ctr now).1.interactions.tail ∧
      (importOutlookCalendarExport host st events ctr now).2 =
        (importOutlookCalendarExport host st (events.take 200) ctr now).2 ∧
      (importOutlookCalendarExport host st events ctr now).1.interactions.head? = some
        { id := genId ((importOutlookCalendarExport host st events ctr now).2 - 1)
          type := InteractionType.note
          atIso := now
          title := "Outlook Calendar export imported"
          summary := some ("Imported " ++ toString events.length ++ " events from CSV.")
          participantIds := []
          source := { host := host } }) := by
  have htte : (emails.take 200).take 200 = emails.take 200 := by
    rw [List.take_take, Nat.min_self]
  have httv : (events.take 200).take 200 = events.take 200 := by
    rw [List.take_take, Nat.min_self]
  constructor
  · intro _
    simp only [importOutlookEmailExport]
    rw [htte]
    exact ⟨rfl, rfl, rfl, rfl⟩
  · intro _
    simp only [importOutlookCalendarExport]
    rw [httv]
    exact ⟨rfl, rfl, rfl, rfl⟩

theorem claim_C6_witness :
    (200 < manyEmails.length ∧
      (importOutlookEmailExport HostApp.web emptyState manyEmails 0 "T0").2 =
        (importOutlookEmailExport HostApp.web emptyState (manyEmails.take 200) 0 "T0").2) ∧
    (200 < manyEvents.length ∧
      (importOutlookCalendarExport HostApp.web emptyState manyEvents 0 "T0").2 =
        (importOutlookCalendarExport HostApp.web emptyState (manyEvents.take 200) 0 "T0").2) :=
  ⟨⟨by decide,
      ((claim_C6 HostApp.web emptyState manyEmails manyEvents 0 "T0").1 (by decide)).2.2.1⟩,
    ⟨by decide,
      ((claim_C6 HostApp.web emptyState manyEmails manyEvents 0 "T0").2 (by decide)).2.2.1⟩⟩

/-- Claim C6 counterexample: on a 201-record inbox batch only the first 200
records are imported — starting from the empty snapshot, the log below the
appended summary note holds exactly 200 per-item interactions — yet the one
summary note describes 201, the parsed count, so the summary does not
describe the count imported as the claim states. -/
theorem claim_C6_counterexample :
    manyEmails.length = 201 ∧
    (importOutlookEmailExport HostApp.web emptyState manyEmails 0
        "T0").1.interactions.tail.length = 200 ∧
    (importOutlookEmailExport HostApp.web emptyState manyEmails 0
        "T0").1.interactions.head?.map (fun i => (i.type, i.summary)) =
      some (InteractionType.note, some "Imported 201 emails from CSV.") := by
  decide

end CaseForce
